import Mathlib

/-!
Shallow embedding of `awsmfa/__main__.py` (flonn/awsmfa).

The program rotates AWS credentials: it resolves an MFA device serial,
obtains temporary credentials from STS (directly or via role assumption),
and rewrites the target profile of an INI-style credentials file.

Modelling conventions:
* `configparser.ConfigParser(default_section=None)` state is a `Store`:
  an ordered association list from section name to an ordered list of
  key/value pairs.  The parser's `optionxform` (which lower-cases option
  keys on both `read` and `set`) is modelled explicitly.
* The serialized credentials file is modelled at line granularity
  (`IniLine`): `write` emits a section header line, one key/value line per
  option, and a blank line; `read` consumes such lines, lower-casing keys
  and raising (modelled as `none`) on duplicate sections or options, as
  Python's strict-mode parser does.
* External collaborators (IAM/STS) are an oracle `Env`; every service
  request the program issues is recorded in an `ApiCall` log.
* The file system is an association list from path to line list, with
  `write` and atomic `rename` operations, so crash points of the persist
  sequence can be enumerated.
-/

deriving instance DecidableEq for Except

namespace Awsmfa

/-- One ordered section of the credentials file: key/value pairs. -/
abbrev Profile := List (String × String)

/-- Parser state: ordered association of section name to profile. -/
abbrev Store := List (String × Profile)

/-- Python truthiness of an optional string: `None` and the empty string
are falsy, every other string is truthy. -/
def truthy : Option String → Bool
  | none => false
  | some s => !(s == "")

/-- ConfigParser's default `optionxform`: option keys are lower-cased. -/
def optionxform (s : String) : String := String.mk (s.toList.map Char.toLower)

/-- Python `str.endswith`: does `s` end with the string `t`? -/
def endswith (s t : String) : Bool :=
  s.toList.reverse.take t.length == t.toList.reverse

/-- Look up a section by name (first match), as the parser's mapping does. -/
def sectionOf : Store → String → Option Profile
  | [], _ => none
  | s :: tl, name => if s.1 = name then some s.2 else sectionOf tl name

/-- ConfigParser.remove_section: drop the section with the given name. -/
def removeSection (st : Store) (name : String) : Store :=
  st.filter (fun s => s.1 ≠ name)

/-- ConfigParser.add_section: append a fresh empty section. -/
def addSection (st : Store) (name : String) : Store := st ++ [(name, [])]

/-- Assignment into a section dict: an existing key keeps its position and
gets the new value, a new key is appended at the end.  The key is expected
to be already transformed by `optionxform`. -/
def setOption (p : Profile) (k v : String) : Profile :=
  if p.any (fun kv => kv.1 = k) then
    p.map (fun kv => if kv.1 = k then (k, v) else kv)
  else p ++ [(k, v)]

/-- ConfigParser.set on a store: applies `optionxform` to the key and
assigns into every section of that name (a parser holds at most one). -/
def setStore (st : Store) (sec k v : String) : Store :=
  st.map (fun s => if s.1 = sec then (s.1, setOption s.2 (optionxform k) v) else s)

/-- One line of the serialized INI file. -/
inductive IniLine
  | header (name : String)
  | kv (key value : String)
  | blank
deriving DecidableEq

/-- ConfigParser.write for one section: header, one line per option, and a
trailing blank line. -/
def writeProfile (name : String) (p : Profile) : List IniLine :=
  IniLine.header name :: (p.map (fun kv => IniLine.kv kv.1 kv.2) ++ [IniLine.blank])

/-- ConfigParser.write: all sections in order (the default section is
`None` and empty, so nothing precedes them). -/
def writeStore (st : Store) : List IniLine :=
  st.foldr (fun s acc => writeProfile s.1 s.2 ++ acc) []

/-- Close the section currently being parsed and append it to the results. -/
def flushSection (acc : Store) (cur : Option (String × Profile)) : Store :=
  match cur with
  | none => acc
  | some s => acc ++ [s]

/-- ConfigParser.read over a line list: section headers open sections
(strict mode raises, modelled `none`, on a duplicate section name),
key/value lines lower-case the key via `optionxform` and raise on a
duplicate option, and a key/value line before any header raises. -/
def parseLines : List IniLine → Option (String × Profile) → Store → Option Store
  | [], cur, acc => some (flushSection acc cur)
  | IniLine.blank :: rest, cur, acc => parseLines rest cur acc
  | IniLine.header n :: rest, cur, acc =>
      let acc' := flushSection acc cur
      if acc'.any (fun s => s.1 = n) then none
      else parseLines rest (some (n, [])) acc'
  | IniLine.kv k v :: rest, cur, acc =>
      match cur with
      | none => none
      | some (n, p) =>
          let k' := optionxform k
          if p.any (fun e => e.1 = k') then none
          else parseLines rest (some (n, p ++ [(k', v)])) acc

/-- Parse a whole serialized file into a store. -/
def parseStore (ls : List IniLine) : Option Store := parseLines ls none []

/-- A profile with its keys lower-cased, as reading it back produces. -/
def canonicalProfile (p : Profile) : Profile :=
  p.map (fun e => (optionxform e.1, e.2))

/-- A store with every profile's keys lower-cased. -/
def canonicalStore (st : Store) : Store :=
  st.map (fun s => (s.1, canonicalProfile s.2))

/-- File system: association of path to file content (line list). -/
abbrev FS := List (String × List IniLine)

/-- Read a file's content, `none` when the path does not exist. -/
def readFS : FS → String → Option (List IniLine)
  | [], _ => none
  | e :: tl, path => if e.1 = path then some e.2 else readFS tl path

/-- Write (create or overwrite) a file. -/
def writeFS : FS → String → List IniLine → FS
  | [], path, content => [(path, content)]
  | e :: tl, path, content =>
      if e.1 = path then (path, content) :: tl else e :: writeFS tl path content

/-- os.rename: atomically move `src` over `dst` (no-op when `src` is
missing; the program always writes `src` first). -/
def renameFS (fs : FS) (src dst : String) : FS :=
  match readFS fs src with
  | none => fs
  | some c => writeFS (fs.filter (fun e => e.1 ≠ src)) dst c

/-- The temporary file used by the persist step: the target path plus a
".tmp" suffix, hence a sibling in the same directory. -/
def tmpPath (path : String) : String := path ++ ".tmp"

/-- The complete persist step of `update_credentials_file`: write the whole
serialized store to the temporary file, then rename it over the target. -/
def persistFS (fs : FS) (path : String) (content : List IniLine) : FS :=
  renameFS (writeFS fs (tmpPath path) content) (tmpPath path) path

/-- Every file-system state reachable while persisting: a crash during the
write leaves any proper part of the content in the temporary file, a crash
between write and rename leaves the full content there, and the final state
is after the atomic rename. -/
def persistStates (fs : FS) (path : String) (content : List IniLine) : List FS :=
  ((List.range (content.length + 1)).map
    (fun j => writeFS fs (tmpPath path) (content.take j)))
  ++ [persistFS fs path content]

/-- Directory part of a path: the characters up to and including the last
slash. -/
def dirName (p : String) : String :=
  String.mk ((p.toList.reverse.dropWhile (fun c => c ≠ '/')).reverse)

/-- A timezone-aware UTC timestamp, as STS returns for Expiration. -/
structure UtcDateTime where
  year : Nat
  month : Nat
  day : Nat
  hour : Nat
  minute : Nat
  second : Nat
deriving DecidableEq

/-- Zero-pad a number below 100 to two digits. -/
def pad2 (n : Nat) : String := if n < 10 then "0" ++ toString n else toString n

/-- Python datetime.isoformat() on a timezone-aware UTC value: the ISO-8601
rendering YYYY-MM-DDTHH:MM:SS+00:00. -/
def isoformat (t : UtcDateTime) : String :=
  toString t.year ++ "-" ++ pad2 t.month ++ "-" ++ pad2 t.day ++ "T" ++
    pad2 t.hour ++ ":" ++ pad2 t.minute ++ ":" ++ pad2 t.second ++ "+00:00"

/-- The Credentials member of a successful STS response. -/
structure TemporaryCredentials where
  AccessKeyId : String
  SecretAccessKey : String
  SessionToken : String
  Expiration : UtcDateTime
deriving DecidableEq

/-- The command-line arguments after parsing, as `main` consumes them.
Optional strings model arguments that default to `None`. -/
structure Args where
  version : Bool
  role_to_assume : Option String
  aws_credentials : String
  duration : Int
  identity_profile : String
  serial_number : Option String
  target_profile : String
  role_session_name : String
  token_code : Option String
deriving DecidableEq

/-- Exit status OK. -/
def OK : Int := 0

/-- Exit status for user-recoverable errors. -/
def USER_RECOVERABLE_ERROR : Int := 1

/-- Default requested duration. -/
def SIX_HOURS_IN_SECONDS : Int := 21600

/-- Python exceptions the modelled code can raise. -/
inductive PyErr
  | typeError
  | clientError (code : String)
  | noSectionError (name : String)
  | parsingError
deriving DecidableEq

/-- One request issued to the identity/session service, with the request
parameters the program supplies. -/
inductive ApiCall
  | getUser
  | currentUserMfaDevices
  | listMfaDevices (userName : String)
  | assumeRole (durationSeconds : Int)
      (roleArn roleSessionName serialNumber tokenCode : String)
  | getSessionToken (durationSeconds : Int) (serialNumber tokenCode : String)
deriving DecidableEq

/-- Is a call one of the two STS session operations? -/
def isStsCall : ApiCall → Bool
  | ApiCall.assumeRole _ _ _ _ _ => true
  | ApiCall.getSessionToken _ _ _ => true
  | _ => false

/-- The boto3 iam list_mfa_devices response.  The real value is a dict
whose top-level keys are MFADevices, IsTruncated and ResponseMetadata:
`MFADevices` holds each device's SerialNumber, and `numResponseKeys`
models `len(...)` of the dict, the count of its top-level keys. -/
structure ListMfaDevicesResponse where
  MFADevices : List String
  numResponseKeys : Nat
deriving DecidableEq

/-- Outcome of the single STS call of a run: either a credentials payload
or a botocore ClientError carrying the service error code. -/
inductive StsOutcome
  | success (credentials : TemporaryCredentials)
  | clientError (code : String)
deriving DecidableEq

/-- Oracle for the external collaborators of one run: whether the identity
profile resolves, the current user record, the device listings either
branch would observe, the STS outcome, and the interactive inputs the
token-code prompt would receive in order. -/
structure Env where
  profileFound : Bool
  userArn : String
  userName : String
  rootMfaDeviceSerials : List String
  listMfaDevicesResponse : ListMfaDevicesResponse
  stsOutcome : StsOutcome
  promptInputs : List String
deriving DecidableEq

/-- Result of `find_mfa_for_user`: the returned serial (`none` models the
Python `None` return), the warnings printed, and the service calls made. -/
structure FindMfaResult where
  res : Except PyErr (Option String)
  warnings : List String
  calls : List ApiCall
deriving DecidableEq

/-- The multiple-device warning text.  The source interpolates
`len(devices)`, where `devices` is the raw listing result, not the list of
serials. -/
def warningMessage (n : Nat) : String :=
  "Warning: user has " ++ toString n ++ " MFA devices. Using the first."

/-- find_mfa_for_user: an explicit (truthy) serial is returned with no
service call.  Otherwise get_user is called; a root identity (ARN ending
in ":root") enumerates devices through the CurrentUser resource, any other
identity through list_mfa_devices(UserName=...).  Zero devices return
None.  With more than one device the warning interpolates `len(devices)`:
for the root branch `devices` is a boto3 resource collection and `len`
raises TypeError; for the standard branch it is the response dict, whose
length is its top-level key count. -/
def find_mfa_for_user (user_specified_serial : Option String) (env : Env) :
    FindMfaResult :=
  if truthy user_specified_serial then
    { res := Except.ok user_specified_serial, warnings := [], calls := [] }
  else if endswith env.userArn ":root" then
    let calls := [ApiCall.getUser, ApiCall.currentUserMfaDevices]
    match env.rootMfaDeviceSerials with
    | [] => { res := Except.ok none, warnings := [], calls := calls }
    | [s] => { res := Except.ok (some s), warnings := [], calls := calls }
    | _ :: _ :: _ =>
        { res := Except.error PyErr.typeError, warnings := [], calls := calls }
  else
    let calls := [ApiCall.getUser, ApiCall.listMfaDevices env.userName]
    match env.listMfaDevicesResponse.MFADevices with
    | [] => { res := Except.ok none, warnings := [], calls := calls }
    | [s] => { res := Except.ok (some s), warnings := [], calls := calls }
    | s :: _ :: _ =>
        { res := Except.ok (some s),
          warnings := [warningMessage env.listMfaDevicesResponse.numResponseKeys],
          calls := calls }

/-- The token-code step: a configured code is used as given (the prompt
loop is guarded by `token_code is None`), otherwise the prompt repeats
until an input of exactly six characters arrives; `none` means no such
input ever arrives and the program stays blocked at the prompt. -/
def obtainTokenCode (configured : Option String) (promptInputs : List String) :
    Option String :=
  match configured with
  | some c => some c
  | none => promptInputs.find? (fun s => s.length = 6)

/-- The single STS request of a run: with a truthy role ARN an AssumeRole
request whose duration is min(requested, 3600), otherwise a
GetSessionToken request with the requested duration unchanged. -/
def stsRequest (args : Args) (serialNumber tokenCode : String) : ApiCall :=
  if truthy args.role_to_assume then
    ApiCall.assumeRole (min args.duration 3600) (args.role_to_assume.getD "")
      args.role_session_name serialNumber tokenCode
  else
    ApiCall.getSessionToken args.duration serialNumber tokenCode

/-- The in-memory part of update_credentials_file: remove and re-add the
target section, copy every item of the identity section into it, then
overwrite the four temporary-credential fields.  `none` models the
NoSectionError items() raises when the identity section is absent. -/
def update_credentials_store (args : Args) (credentials : Store)
    (tc : TemporaryCredentials) : Option Store :=
  let s := addSection (removeSection credentials args.target_profile)
      args.target_profile
  match sectionOf s args.identity_profile with
  | none => none
  | some src =>
      let s := src.foldl
        (fun acc kv => setStore acc args.target_profile kv.1 kv.2) s
      let s := setStore s args.target_profile "aws_access_key_id" tc.AccessKeyId
      let s := setStore s args.target_profile "aws_secret_access_key"
          tc.SecretAccessKey
      let s := setStore s args.target_profile "aws_session_token"
          tc.SessionToken
      let s := setStore s args.target_profile "awsmfa_expiration"
          (isoformat tc.Expiration)
      some s

/-- ConfigParser().read(path): a missing file yields an empty store, a
malformed file raises (modelled `none`). -/
def loadStore (fs : FS) (path : String) : Option Store :=
  match readFS fs path with
  | none => some []
  | some ls => parseStore ls

/-- How a run of `main` ends: a returned exit status, an uncaught
exception, or blocked forever at the token prompt. -/
inductive MainOutcome
  | exited (status : Int)
  | raised (e : PyErr)
  | blockedOnPrompt
deriving DecidableEq

/-- Result of a run of `main`: how it ended, the final file system, and
the service calls issued. -/
structure MainResult where
  outcome : MainOutcome
  fs : FS
  calls : List ApiCall
deriving DecidableEq

/-- main: print version and exit, or load the credentials file, resolve
the boto3 session (ProfileNotFound exits recoverably), resolve the MFA
serial (a falsy result exits recoverably), obtain a token code, issue the
STS request (an AccessDenied ClientError exits recoverably, any other
ClientError is re-raised), and on success rewrite and persist the
credentials file. -/
def main (args : Args) (env : Env) (fs : FS) : MainResult :=
  if args.version then
    { outcome := MainOutcome.exited OK, fs := fs, calls := [] }
  else
    match loadStore fs args.aws_credentials with
    | none =>
        { outcome := MainOutcome.raised PyErr.parsingError, fs := fs, calls := [] }
    | some credentials =>
        if !env.profileFound then
          { outcome := MainOutcome.exited USER_RECOVERABLE_ERROR, fs := fs,
            calls := [] }
        else
          match (find_mfa_for_user args.serial_number env).res with
          | Except.error e =>
              { outcome := MainOutcome.raised e, fs := fs,
                calls := (find_mfa_for_user args.serial_number env).calls }
          | Except.ok serial_number =>
              if !truthy serial_number then
                { outcome := MainOutcome.exited USER_RECOVERABLE_ERROR, fs := fs,
                  calls := (find_mfa_for_user args.serial_number env).calls }
              else
                match obtainTokenCode args.token_code env.promptInputs with
                | none =>
                    { outcome := MainOutcome.blockedOnPrompt, fs := fs,
                      calls := (find_mfa_for_user args.serial_number env).calls }
                | some token_code =>
                    match env.stsOutcome with
                    | StsOutcome.clientError code =>
                        if code = "AccessDenied" then
                          { outcome := MainOutcome.exited USER_RECOVERABLE_ERROR,
                            fs := fs,
                            calls := (find_mfa_for_user args.serial_number env).calls
                              ++ [stsRequest args (serial_number.getD "") token_code] }
                        else
                          { outcome := MainOutcome.raised (PyErr.clientError code),
                            fs := fs,
                            calls := (find_mfa_for_user args.serial_number env).calls
                              ++ [stsRequest args (serial_number.getD "") token_code] }
                    | StsOutcome.success creds =>
                        match update_credentials_store args credentials creds with
                        | none =>
                            { outcome := MainOutcome.raised
                                (PyErr.noSectionError args.identity_profile),
                              fs := fs,
                              calls := (find_mfa_for_user args.serial_number env).calls
                                ++ [stsRequest args (serial_number.getD "") token_code] }
                        | some st =>
                            { outcome := MainOutcome.exited OK,
                              fs := persistFS fs args.aws_credentials
                                (writeStore st),
                              calls := (find_mfa_for_user args.serial_number env).calls
                                ++ [stsRequest args (serial_number.getD "") token_code] }

/-! ### Concrete sample inputs used to exercise the model -/

/-- A concrete temporary-credentials payload. -/
def sampleCreds : TemporaryCredentials :=
  { AccessKeyId := "ASIAEXAMPLEKEY"
    SecretAccessKey := "exampleSecret"
    SessionToken := "exampleToken"
    Expiration := { year := 2026, month := 10, day := 12, hour := 3,
                    minute := 4, second := 5 } }

/-- A listing response holding one device; the response dict has the three
top-level keys MFADevices, IsTruncated, ResponseMetadata. -/
def sampleResponse : ListMfaDevicesResponse :=
  { MFADevices := ["arn:aws:iam::123456789012:mfa/alice"], numResponseKeys := 3 }

/-- A run whose STS call is denied. -/
def sampleEnvDenied : Env :=
  { profileFound := true
    userArn := "arn:aws:iam::123456789012:user/alice"
    userName := "alice"
    rootMfaDeviceSerials := []
    listMfaDevicesResponse := sampleResponse
    stsOutcome := StsOutcome.clientError "AccessDenied"
    promptInputs := [] }

/-- A run whose STS call succeeds. -/
def sampleEnvSuccess : Env :=
  { sampleEnvDenied with stsOutcome := StsOutcome.success sampleCreds }

/-- A run in which the user has no MFA devices. -/
def sampleEnvNoDevices : Env :=
  { sampleEnvSuccess with
    listMfaDevicesResponse := { MFADevices := [], numResponseKeys := 3 } }

/-- A standard user with two MFA devices; the listing response dict has
its usual three top-level keys (MFADevices, IsTruncated, ResponseMetadata). -/
def sampleEnvTwoDevices : Env :=
  { sampleEnvSuccess with
    listMfaDevicesResponse :=
      { MFADevices := ["arn:aws:iam::123456789012:mfa/alice",
                       "arn:aws:iam::123456789012:mfa/alice-2"],
        numResponseKeys := 3 } }

/-- The account root identity with two MFA devices. -/
def sampleEnvRootTwoDevices : Env :=
  { sampleEnvSuccess with
    userArn := "arn:aws:iam::123456789012:root"
    rootMfaDeviceSerials := ["arn:aws:iam::123456789012:mfa/root-1",
                             "arn:aws:iam::123456789012:mfa/root-2"] }

/-- Arguments configuring a role to assume, with a duration above the
role-assumption cap. -/
def sampleArgsRole : Args :=
  { version := false
    role_to_assume := some "arn:aws:iam::123456789012:role/admin"
    aws_credentials := "/home/u/.aws/credentials"
    duration := 21600
    identity_profile := "identity"
    serial_number := none
    target_profile := "default"
    role_session_name := "awsmfa_20261012T000000"
    token_code := some "123456" }

/-- Arguments with no role configured. -/
def sampleArgsDirect : Args := { sampleArgsRole with role_to_assume := none }

/-- A credentials store with an identity profile and a stale target. -/
def sampleStore : Store :=
  [("identity", [("aws_access_key_id", "AKIAEXAMPLE"), ("region", "us-east-1")]),
   ("default", [("stale", "yes")])]

/-- A file system holding the serialized sample store. -/
def sampleFS : FS := [("/home/u/.aws/credentials", writeStore sampleStore)]

/-- The copied target profile: every item of the source section assigned,
in order, into the fresh target section. -/
def copiedProfile (src : Profile) : Profile :=
  src.foldl (fun q kv => setOption q (optionxform kv.1) kv.2) []

/-- The target profile after rotation: the copied source items with the
four temporary-credential fields assigned last. -/
def rotatedProfile (src : Profile) (tc : TemporaryCredentials) : Profile :=
  setOption (setOption (setOption (setOption (copiedProfile src)
    "aws_access_key_id" tc.AccessKeyId)
    "aws_secret_access_key" tc.SecretAccessKey)
    "aws_session_token" tc.SessionToken)
    "awsmfa_expiration" (isoformat tc.Expiration)

/-- The store after rotating `sampleStore` with `sampleCreds`. -/
def sampleRotatedStore : Store :=
  [("identity", [("aws_access_key_id", "AKIAEXAMPLE"), ("region", "us-east-1")]),
   ("default", [("aws_access_key_id", "ASIAEXAMPLEKEY"), ("region", "us-east-1"),
                ("aws_secret_access_key", "exampleSecret"),
                ("aws_session_token", "exampleToken"),
                ("awsmfa_expiration", "2026-10-12T03:04:05+00:00")])]

/-! ### Lemmas about the store operations -/

lemma removeSection_cons_of_eq (s : String × Profile) (tl : Store) (t : String)
    (hs : s.1 = t) : removeSection (s :: tl) t = removeSection tl t := by
  simp [removeSection, hs]

lemma removeSection_cons_of_ne (s : String × Profile) (tl : Store) (t : String)
    (hs : ¬ s.1 = t) : removeSection (s :: tl) t = s :: removeSection tl t := by
  simp [removeSection, hs]

lemma sectionOf_removeSection (st : Store) (t q : String) (h : q ≠ t) :
    sectionOf (removeSection st t) q = sectionOf st q := by
  induction st with
  | nil => rfl
  | cons s tl ih =>
      by_cases hs : s.1 = t
      · have hq : ¬ s.1 = q := by rw [hs]; exact fun hx => h hx.symm
        rw [removeSection_cons_of_eq s tl t hs, ih]
        simp [sectionOf, hq]
      · rw [removeSection_cons_of_ne s tl t hs]
        by_cases hq : s.1 = q
        · simp [sectionOf, hq]
        · simp [sectionOf, hq, ih]

lemma removeSection_ne (st : Store) (t : String) :
    ∀ s ∈ removeSection st t, s.1 ≠ t := by
  intro s hs
  have := List.of_mem_filter hs
  simpa using this

lemma sectionOf_append_of_ne (A rest : Store) (q : String)
    (hA : ∀ s ∈ A, s.1 ≠ q) :
    sectionOf (A ++ rest) q = sectionOf rest q := by
  induction A with
  | nil => rfl
  | cons s tl ih =>
      have hs : ¬ s.1 = q := hA s (by simp)
      simp only [List.cons_append, sectionOf, hs, if_false]
      exact ih (fun x hx => hA x (by simp [hx]))

lemma sectionOf_append_self (A : Store) (t : String) (p : Profile)
    (hA : ∀ s ∈ A, s.1 ≠ t) :
    sectionOf (A ++ [(t, p)]) t = some p := by
  rw [sectionOf_append_of_ne A _ t hA]
  simp [sectionOf]

lemma sectionOf_append_single_ne (A : Store) (t : String) (p : Profile)
    (q : String) (h : q ≠ t) :
    sectionOf (A ++ [(t, p)]) q = sectionOf A q := by
  induction A with
  | nil =>
      have : ¬ t = q := fun hx => h hx.symm
      simp [sectionOf, this]
  | cons s tl ih =>
      simp only [List.cons_append, sectionOf]
      by_cases hs : s.1 = q <;> simp [hs, ih]

lemma setStore_shape (A : Store) (t : String) (p : Profile) (k v : String)
    (hA : ∀ s ∈ A, s.1 ≠ t) :
    setStore (A ++ [(t, p)]) t k v =
      A ++ [(t, setOption p (optionxform k) v)] := by
  induction A with
  | nil => simp [setStore]
  | cons s tl ih =>
      have hs : ¬ s.1 = t := hA s (by simp)
      simp only [List.cons_append, setStore, List.map_cons, hs, if_false]
      have := ih (fun x hx => hA x (by simp [hx]))
      simp only [setStore] at this
      simp [this]

lemma foldl_setStore_shape (src : Profile) (t : String) :
    ∀ (A : Store) (p : Profile), (∀ s ∈ A, s.1 ≠ t) →
      src.foldl (fun acc kv => setStore acc t kv.1 kv.2) (A ++ [(t, p)]) =
        A ++ [(t, src.foldl (fun q kv => setOption q (optionxform kv.1) kv.2) p)] := by
  induction src with
  | nil => intro A p _; rfl
  | cons kv tl ih =>
      intro A p hA
      simp only [List.foldl_cons, setStore_shape A t p kv.1 kv.2 hA]
      exact ih A _ hA

lemma update_credentials_store_eq (args : Args) (credentials : Store)
    (tc : TemporaryCredentials) :
    update_credentials_store args credentials tc =
      (sectionOf (addSection (removeSection credentials args.target_profile)
          args.target_profile) args.identity_profile).map
        (fun src => removeSection credentials args.target_profile ++
          [(args.target_profile, rotatedProfile src tc)]) := by
  have hA := removeSection_ne credentials args.target_profile
  unfold update_credentials_store
  cases hsec : sectionOf (addSection (removeSection credentials args.target_profile)
      args.target_profile) args.identity_profile with
  | none => simp [addSection] at hsec ⊢; simp [hsec]
  | some src =>
      simp only [addSection] at hsec ⊢
      rw [hsec]
      simp only [Option.map_some]
      rw [foldl_setStore_shape src args.target_profile _ [] hA]
      rw [setStore_shape _ _ _ _ _ hA, setStore_shape _ _ _ _ _ hA,
        setStore_shape _ _ _ _ _ hA, setStore_shape _ _ _ _ _ hA]
      have e1 : optionxform "aws_access_key_id" = "aws_access_key_id" := by decide
      have e2 : optionxform "aws_secret_access_key" = "aws_secret_access_key" := by
        decide
      have e3 : optionxform "aws_session_token" = "aws_session_token" := by decide
      have e4 : optionxform "awsmfa_expiration" = "awsmfa_expiration" := by decide
      rw [e1, e2, e3, e4]
      rfl

lemma foldl_setOption_append (src : Profile) :
    ∀ (p : Profile), (((p ++ src).map Prod.fst).Nodup) →
      (∀ e ∈ src, optionxform e.1 = e.1) →
      src.foldl (fun q kv => setOption q (optionxform kv.1) kv.2) p = p ++ src := by
  induction src with
  | nil => intro p _ _; simp
  | cons kv tl ih =>
      intro p hd hc
      obtain ⟨k, v⟩ := kv
      have hk : optionxform k = k := hc (k, v) (by simp)
      have hnotin : k ∉ p.map Prod.fst := by
        rw [List.map_append, List.map_cons] at hd
        have h2 := List.nodup_middle.mp hd
        exact fun hmem => (List.nodup_cons.mp h2).1 (by simp [hmem])
      have hany : p.any (fun e => e.1 = k) = false := by
        rw [List.any_eq_false]
        intro e he
        simp only [decide_eq_true_eq]
        exact fun hx => hnotin (hx ▸ List.mem_map_of_mem Prod.fst he)
      have hstep : setOption p (optionxform k) v = p ++ [(k, v)] := by
        rw [hk]
        unfold setOption
        rw [hany]
        simp
      have hd' : (((p ++ [(k, v)]) ++ tl).map Prod.fst).Nodup := by
        simpa using hd
      have hrest := ih (p ++ [(k, v)]) hd' (fun e he => hc e (by simp [he]))
      simp only [List.foldl_cons]
      rw [hstep, hrest]
      simp

lemma copiedProfile_eq_self (src : Profile)
    (hd : (src.map Prod.fst).Nodup)
    (hc : ∀ e ∈ src, optionxform e.1 = e.1) :
    copiedProfile src = src := by
  have := foldl_setOption_append src [] (by simpa using hd) hc
  simpa [copiedProfile] using this

/-- C3: after a successful rotation the target profile consists of exactly
the fields of the configured identity profile, with exactly the four
fields aws_access_key_id, aws_secret_access_key, aws_session_token and
awsmfa_expiration (the ISO-8601 rendering of the credential expiration)
overwritten, and no other keys present, regardless of what the target
profile contained before.  The source profile's keys are assumed distinct
and already in the parser's canonical lower-case form, as loading the file
guarantees. -/
theorem rotated_target_profile (args : Args) (credentials : Store)
    (tc : TemporaryCredentials) (src : Profile)
    (hne : args.identity_profile ≠ args.target_profile)
    (hsrc : sectionOf credentials args.identity_profile = some src)
    (hd : (src.map Prod.fst).Nodup)
    (hc : ∀ e ∈ src, optionxform e.1 = e.1) :
    ∃ st, update_credentials_store args credentials tc = some st ∧
      sectionOf st args.target_profile = some
        (setOption (setOption (setOption (setOption src
          "aws_access_key_id" tc.AccessKeyId)
          "aws_secret_access_key" tc.SecretAccessKey)
          "aws_session_token" tc.SessionToken)
          "awsmfa_expiration" (isoformat tc.Expiration)) := by
  have hA := removeSection_ne credentials args.target_profile
  have hsec : sectionOf (addSection (removeSection credentials args.target_profile)
      args.target_profile) args.identity_profile = some src := by
    unfold addSection
    rw [sectionOf_append_single_ne _ _ _ _ hne,
      sectionOf_removeSection _ _ _ hne]
    exact hsrc
  rw [update_credentials_store_eq, hsec]
  refine ⟨_, rfl, ?_⟩
  rw [sectionOf_append_self _ _ _ hA]
  unfold rotatedProfile
  rw [copiedProfile_eq_self src hd hc]

/-- Witness for C3: rotating the sample store writes a target profile made
of the identity profile's fields with the four credential fields set. -/
theorem rotated_target_profile_applied :
    ∃ st, update_credentials_store sampleArgsDirect sampleStore sampleCreds =
        some st ∧
      sectionOf st "default" = some
        (setOption (setOption (setOption (setOption
          [("aws_access_key_id", "AKIAEXAMPLE"), ("region", "us-east-1")]
          "aws_access_key_id" sampleCreds.AccessKeyId)
          "aws_secret_access_key" sampleCreds.SecretAccessKey)
          "aws_session_token" sampleCreds.SessionToken)
          "awsmfa_expiration" (isoformat sampleCreds.Expiration)) :=
  rotated_target_profile sampleArgsDirect sampleStore sampleCreds
    [("aws_access_key_id", "AKIAEXAMPLE"), ("region", "us-east-1")]
    (by decide) (by decide) (by decide) (by decide)

/-- C4: replacing the target profile and persisting leaves every profile
other than the target with an unchanged set of keys and unchanged values:
the rewritten store agrees with the loaded one on every other section. -/
theorem untouched_other_profiles (args : Args) (credentials : Store)
    (tc : TemporaryCredentials) (st : Store) (q : String)
    (h : update_credentials_store args credentials tc = some st)
    (hq : q ≠ args.target_profile) :
    sectionOf st q = sectionOf credentials q := by
  rw [update_credentials_store_eq] at h
  obtain ⟨src, hsrc, rfl⟩ := Option.map_eq_some'.mp h
  rw [sectionOf_append_single_ne _ _ _ _ hq,
    sectionOf_removeSection _ _ _ hq]

/-- Witness for C4: the identity profile is untouched by the rotation of
the sample store. -/
theorem untouched_other_profiles_applied :
    sectionOf sampleRotatedStore "identity" = sectionOf sampleStore "identity" :=
  untouched_other_profiles sampleArgsDirect sampleStore sampleCreds
    sampleRotatedStore "identity" (by decide) (by decide)

/-! ### Lemmas about serialization and parsing -/

lemma canonicalProfile_eq_self (p : Profile)
    (hc : ∀ e ∈ p, optionxform e.1 = e.1) : canonicalProfile p = p := by
  unfold canonicalProfile
  induction p with
  | nil => rfl
  | cons e tl ih =>
      simp only [List.map_cons]
      have he : (optionxform e.1, e.2) = e := by rw [hc e (by simp)]
      rw [he, ih (fun x hx => hc x (by simp [hx]))]

lemma canonicalStore_eq_self (st : Store)
    (hc : ∀ s ∈ st, ∀ e ∈ s.2, optionxform e.1 = e.1) :
    canonicalStore st = st := by
  unfold canonicalStore
  induction st with
  | nil => rfl
  | cons s tl ih =>
      simp only [List.map_cons]
      have hs : (s.1, canonicalProfile s.2) = s := by
        rw [canonicalProfile_eq_self s.2 (hc s (by simp))]
      rw [hs, ih (fun x hx => hc x (by simp [hx]))]

lemma parseLines_kv_run (p : Profile) :
    ∀ (q : Profile) (n : String) (acc : Store) (rest : List IniLine),
      (((q ++ canonicalProfile p).map Prod.fst).Nodup) →
      parseLines ((p.map (fun kv => IniLine.kv kv.1 kv.2)) ++ rest)
          (some (n, q)) acc =
        parseLines rest (some (n, q ++ canonicalProfile p)) acc := by
  induction p with
  | nil => intro q n acc rest _; simp [canonicalProfile]
  | cons kv tl ih =>
      intro q n acc rest hd
      obtain ⟨k, v⟩ := kv
      have hcp : canonicalProfile ((k, v) :: tl) =
          (optionxform k, v) :: canonicalProfile tl := rfl
      rw [hcp] at hd
      have hnotin : optionxform k ∉ q.map Prod.fst := by
        rw [List.map_append, List.map_cons] at hd
        have h2 := List.nodup_middle.mp hd
        exact fun hmem => (List.nodup_cons.mp h2).1 (by simp [hmem])
      have hany : q.any (fun e => e.1 = optionxform k) = false := by
        rw [List.any_eq_false]
        intro e he
        simp only [decide_eq_true_eq]
        exact fun hx => hnotin (hx ▸ List.mem_map_of_mem Prod.fst he)
      have hd' : (((q ++ [(optionxform k, v)]) ++ canonicalProfile tl).map
          Prod.fst).Nodup := by simpa using hd
      simp only [List.map_cons, List.cons_append, parseLines]
      rw [hany]
      simp only [Bool.false_eq_true, if_false, List.append_eq]
      rw [ih (q ++ [(optionxform k, v)]) n acc rest hd']
      rw [hcp]
      simp

lemma parseLines_writeStore (st : Store) :
    ∀ (cur : Option (String × Profile)) (acc : Store),
      ((((flushSection acc cur).map Prod.fst) ++ st.map Prod.fst).Nodup) →
      (∀ s ∈ st, ((canonicalProfile s.2).map Prod.fst).Nodup) →
      parseLines (writeStore st) cur acc =
        some (flushSection acc cur ++ canonicalStore st) := by
  induction st with
  | nil =>
      intro cur acc _ _
      simp [writeStore, parseLines, canonicalStore]
  | cons s tl ih =>
      intro cur acc hnames hkeys
      obtain ⟨n, p⟩ := s
      have hws : writeStore ((n, p) :: tl) = writeProfile n p ++ writeStore tl :=
        rfl
      have hnotin : n ∉ (flushSection acc cur).map Prod.fst := by
        rw [List.map_cons] at hnames
        have h2 := List.nodup_middle.mp hnames
        exact fun hmem => (List.nodup_cons.mp h2).1 (by simp [hmem])
      have hany : (flushSection acc cur).any (fun s => s.1 = n) = false := by
        rw [List.any_eq_false]
        intro e he
        simp only [decide_eq_true_eq]
        exact fun hx => hnotin (hx ▸ List.mem_map_of_mem Prod.fst he)
      rw [hws]
      simp only [writeProfile, List.cons_append, List.append_assoc, parseLines]
      rw [hany]
      simp only [Bool.false_eq_true, if_false, List.append_eq, List.append_assoc]
      have hkv := parseLines_kv_run p [] n (flushSection acc cur)
        ([IniLine.blank] ++ writeStore tl)
        (by simpa using hkeys (n, p) (by simp))
      simp only [List.nil_append] at hkv
      rw [hkv]
      simp only [List.cons_append, parseLines, List.append_eq, List.nil_append]
      have hnames' : (((flushSection (flushSection acc cur)
          (some (n, canonicalProfile p))).map Prod.fst) ++
            tl.map Prod.fst).Nodup := by
        simp only [flushSection]
        rw [List.map_append]
        simpa using hnames
      rw [ih (some (n, canonicalProfile p)) (flushSection acc cur) hnames'
        (fun x hx => hkeys x (by simp [hx]))]
      simp [flushSection, canonicalStore]

/-- C5 counterexample: a store holding the key Region does not survive a
write-then-read cycle verbatim: the re-loaded store holds the key region,
because reading applies the parser's lower-casing optionxform.  The claim
that keys are preserved including their character case fails. -/
theorem roundtrip_preserves_case_refuted :
    parseStore (writeStore [("profile", [("Region", "us-east-1")])]) =
      some [("profile", [("region", "us-east-1")])] ∧
    parseStore (writeStore [("profile", [("Region", "us-east-1")])]) ≠
      some [("profile", [("Region", "us-east-1")])] := by decide

/-- C5 (amended): for every store whose profile names are distinct, whose
keys are distinct within each profile, and whose keys are already in the
parser's canonical lower-case form — as any store produced by loading a
file or by this program's own writes is — persisting and re-loading yields
the identical store: same profile set, same keys, same values.  Keys
containing upper-case letters are preserved only up to lower-casing. -/
theorem roundtrip_fidelity_canonical (st : Store)
    (hnames : (st.map Prod.fst).Nodup)
    (hkeys : ∀ s ∈ st, ((s.2.map Prod.fst).Nodup))
    (hcanon : ∀ s ∈ st, ∀ e ∈ s.2, optionxform e.1 = e.1) :
    parseStore (writeStore st) = some st := by
  have hcs : canonicalStore st = st := canonicalStore_eq_self st hcanon
  have hk : ∀ s ∈ st, ((canonicalProfile s.2).map Prod.fst).Nodup := by
    intro s hs
    rw [canonicalProfile_eq_self s.2 (hcanon s hs)]
    exact hkeys s hs
  have := parseLines_writeStore st none [] (by simpa [flushSection] using hnames) hk
  simpa [parseStore, flushSection, hcs] using this

/-- Witness for C5 (amended): the sample store round-trips unchanged. -/
theorem roundtrip_fidelity_canonical_applied :
    parseStore (writeStore sampleStore) = some sampleStore :=
  roundtrip_fidelity_canonical sampleStore (by decide) (by decide) (by decide)

/-! ### Device resolution -/

/-- C6: a non-empty explicit serial is returned unchanged and no
identity-service call of any kind is performed. -/
theorem explicit_serial_no_calls (s : String) (env : Env) (h : s ≠ "") :
    find_mfa_for_user (some s) env =
      { res := Except.ok (some s), warnings := [], calls := [] } := by
  have ht : truthy (some s) = true := by simp [truthy, h]
  unfold find_mfa_for_user
  rw [ht]
  simp

/-- Witness for C6: resolution with an explicit device ARN. -/
theorem explicit_serial_no_calls_applied :
    find_mfa_for_user (some "arn:aws:iam::123456789012:mfa/alice")
        sampleEnvSuccess =
      { res := Except.ok (some "arn:aws:iam::123456789012:mfa/alice"),
        warnings := [], calls := [] } :=
  explicit_serial_no_calls "arn:aws:iam::123456789012:mfa/alice"
    sampleEnvSuccess (by decide)

/-- C9: with no explicit serial, resolution queries the current user
record and branches on the ARN: a trailing ":root" marker enumerates
devices through the current-user self-describe resource, any other
identity through the user-scoped list_mfa_devices call with the resolved
username passed explicitly. -/
theorem enumeration_branching (serial : Option String) (env : Env)
    (h : truthy serial = false) :
    (find_mfa_for_user serial env).calls =
      (if endswith env.userArn ":root" = true
       then [ApiCall.getUser, ApiCall.currentUserMfaDevices]
       else [ApiCall.getUser, ApiCall.listMfaDevices env.userName]) := by
  unfold find_mfa_for_user
  rw [h]
  simp only [Bool.false_eq_true, if_false]
  by_cases hroot : endswith env.userArn ":root" = true
  · simp only [hroot, if_true]
    cases env.rootMfaDeviceSerials with
    | nil => rfl
    | cons a tl => cases tl <;> rfl
  · simp only [hroot, if_false]
    cases env.listMfaDevicesResponse.MFADevices with
    | nil => rfl
    | cons a tl => cases tl <;> rfl

/-- Witness for C9: resolution for the sample IAM user issues get_user and
the user-scoped listing call. -/
theorem enumeration_branching_applied :
    (find_mfa_for_user none sampleEnvSuccess).calls =
      (if endswith sampleEnvSuccess.userArn ":root" = true
       then [ApiCall.getUser, ApiCall.currentUserMfaDevices]
       else [ApiCall.getUser,
             ApiCall.listMfaDevices sampleEnvSuccess.userName]) :=
  enumeration_branching none sampleEnvSuccess (by decide)

/-- C8 evidence: the multiple-device warning interpolates len(devices),
where devices is the raw listing result rather than the serial list.  For
a standard user with two MFA devices the warning therefore reports 3 (the
top-level key count of the response dict), not 2, although the first
device is still returned; for a root identity with two devices len() of
the boto3 resource collection raises TypeError, so resolution raises
instead of warning.  This contradicts both the claim and the warning's own
message text, which promises the number of MFA devices. -/
theorem mfa_warning_count_bug :
    (find_mfa_for_user none sampleEnvTwoDevices).warnings =
      ["Warning: user has 3 MFA devices. Using the first."] ∧
    sampleEnvTwoDevices.listMfaDevicesResponse.MFADevices.length = 2 ∧
    (find_mfa_for_user none sampleEnvTwoDevices).res =
      Except.ok (some "arn:aws:iam::123456789012:mfa/alice") ∧
    (find_mfa_for_user none sampleEnvRootTwoDevices).res =
      Except.error PyErr.typeError := by decide

/-! ### The orchestrating main -/

lemma find_calls_no_sts (serial : Option String) (env : Env) :
    (find_mfa_for_user serial env).calls.any isStsCall = false := by
  unfold find_mfa_for_user
  split
  · rfl
  · split
    · split <;> rfl
    · split <;> rfl

lemma main_calls_cases (args : Args) (env : Env) (fs : FS) :
    (main args env fs).calls = [] ∨
    (main args env fs).calls = (find_mfa_for_user args.serial_number env).calls ∨
    ∃ ser tok, (main args env fs).calls =
      (find_mfa_for_user args.serial_number env).calls ++
        [stsRequest args ser tok] := by
  unfold main
  repeat' split
  all_goals
    first
      | exact Or.inl rfl
      | exact Or.inr (Or.inl rfl)
      | exact Or.inr (Or.inr ⟨_, _, rfl⟩)

/-- C1: whenever a run issues an AssumeRole request its duration is the
minimum of the requested duration and 3600 seconds and a role ARN was
configured; whenever a run issues a GetSessionToken request its duration
is exactly the requested duration, unclamped, and no role ARN was
configured. -/
theorem sts_duration_clamping (args : Args) (env : Env) (fs : FS) :
    (∀ d role sn ser tok,
      ApiCall.assumeRole d role sn ser tok ∈ (main args env fs).calls →
        truthy args.role_to_assume = true ∧ d = min args.duration 3600) ∧
    (∀ d ser tok,
      ApiCall.getSessionToken d ser tok ∈ (main args env fs).calls →
        truthy args.role_to_assume = false ∧ d = args.duration) := by
  have hfind := List.any_eq_false.mp
    (find_calls_no_sts args.serial_number env)
  rcases main_calls_cases args env fs with h | h | ⟨ser, tok, h⟩
  · constructor
    · intro d role sn s t hm
      rw [h] at hm
      simp at hm
    · intro d s t hm
      rw [h] at hm
      simp at hm
  · constructor
    · intro d role sn s t hm
      rw [h] at hm
      exact absurd rfl (hfind _ hm)
    · intro d s t hm
      rw [h] at hm
      exact absurd rfl (hfind _ hm)
  · constructor
    · intro d role sn s t hm
      rw [h] at hm
      rcases List.mem_append.mp hm with hm | hm
      · exact absurd rfl (hfind _ hm)
      · have he := List.mem_singleton.mp hm
        unfold stsRequest at he
        by_cases hrole : truthy args.role_to_assume = true
        · rw [if_pos hrole] at he
          injection he with h1 h2 h3 h4 h5
          exact ⟨hrole, h1⟩
        · rw [if_neg hrole] at he
          cases he
    · intro d s t hm
      rw [h] at hm
      rcases List.mem_append.mp hm with hm | hm
      · exact absurd rfl (hfind _ hm)
      · have he := List.mem_singleton.mp hm
        unfold stsRequest at he
        by_cases hrole : truthy args.role_to_assume = true
        · rw [if_pos hrole] at he
          cases he
        · rw [if_neg hrole] at he
          injection he with h1 h2 h3
          exact ⟨by simpa using hrole, h1⟩

/-- Witness for C1: the sample role run requests 21600 seconds and the
AssumeRole call carries the clamped duration 3600. -/
theorem sts_duration_clamping_applied :
    truthy sampleArgsRole.role_to_assume = true ∧
    (3600 : Int) = min sampleArgsRole.duration 3600 :=
  (sts_duration_clamping sampleArgsRole sampleEnvDenied sampleFS).1 3600
    "arn:aws:iam::123456789012:role/admin" "awsmfa_20261012T000000"
    "arn:aws:iam::123456789012:mfa/alice" "123456" (by decide)

/-- C2: when the STS call reports a ClientError the credentials file on
disk is unchanged from before the invocation; an AccessDenied error code
exits with the user-recoverable status, and any other error code is
re-raised unmodified rather than converted. -/
theorem client_error_handling (args : Args) (env : Env) (fs : FS)
    (code : String)
    (hsts : env.stsOutcome = StsOutcome.clientError code)
    (hreach : (main args env fs).calls.any isStsCall = true) :
    (main args env fs).fs = fs ∧
    (code = "AccessDenied" →
      (main args env fs).outcome = MainOutcome.exited USER_RECOVERABLE_ERROR) ∧
    (code ≠ "AccessDenied" →
      (main args env fs).outcome = MainOutcome.raised (PyErr.clientError code)) := by
  revert hreach
  unfold main
  split
  · intro hreach
    simp at hreach
  · split
    · intro hreach
      simp at hreach
    · split
      · intro hreach
        simp at hreach
      · split
        · intro hreach
          rw [find_calls_no_sts] at hreach
          simp at hreach
        · split
          · intro hreach
            rw [find_calls_no_sts] at hreach
            simp at hreach
          · split
            · intro hreach
              rw [find_calls_no_sts] at hreach
              simp at hreach
            · split
              · rename_i c hc
                rw [hsts] at hc
                injection hc with hcc
                subst hcc
                intro _
                by_cases h2 : code = "AccessDenied"
                · rw [if_pos h2]
                  exact ⟨rfl, fun _ => rfl, fun hn => absurd h2 hn⟩
                · rw [if_neg h2]
                  exact ⟨rfl, fun hx => absurd hx h2, fun _ => rfl⟩
              · rename_i creds hc
                rw [hsts] at hc
                cases hc

/-- Witness for C2: the denied sample run leaves the file system untouched
and exits with the user-recoverable status. -/
theorem client_error_handling_applied :
    (main sampleArgsRole sampleEnvDenied sampleFS).fs = sampleFS ∧
    (main sampleArgsRole sampleEnvDenied sampleFS).outcome =
      MainOutcome.exited USER_RECOVERABLE_ERROR := by
  have h := client_error_handling sampleArgsRole sampleEnvDenied sampleFS
    "AccessDenied" rfl (by decide)
  exact ⟨h.1, h.2.1 rfl⟩

/-- C7: when device listing returns zero MFA devices, resolution yields
the not-found result, the run exits with the user-recoverable status, the
session and role-assumption API is never invoked, and the credentials file
is not mutated. -/
theorem no_mfa_devices_recoverable (args : Args) (env : Env) (fs : FS)
    (cred : Store)
    (hv : args.version = false)
    (hload : loadStore fs args.aws_credentials = some cred)
    (hp : env.profileFound = true)
    (hs : truthy args.serial_number = false)
    (hdev : (if endswith env.userArn ":root" = true
             then env.rootMfaDeviceSerials
             else env.listMfaDevicesResponse.MFADevices) = []) :
    (find_mfa_for_user args.serial_number env).res = Except.ok none ∧
    (main args env fs).outcome = MainOutcome.exited USER_RECOVERABLE_ERROR ∧
    (main args env fs).fs = fs ∧
    (main args env fs).calls.any isStsCall = false := by
  have hfind : find_mfa_for_user args.serial_number env =
      { res := Except.ok none, warnings := [],
        calls := if endswith env.userArn ":root" = true
                 then [ApiCall.getUser, ApiCall.currentUserMfaDevices]
                 else [ApiCall.getUser, ApiCall.listMfaDevices env.userName] } := by
    unfold find_mfa_for_user
    rw [hs]
    simp only [Bool.false_eq_true, if_false]
    by_cases hroot : endswith env.userArn ":root" = true
    · rw [if_pos hroot] at hdev
      rw [if_pos hroot, if_pos hroot, hdev]
    · rw [if_neg hroot] at hdev
      rw [if_neg hroot, if_neg hroot, hdev]
  have hmain : main args env fs =
      { outcome := MainOutcome.exited USER_RECOVERABLE_ERROR, fs := fs,
        calls := (find_mfa_for_user args.serial_number env).calls } := by
    unfold main
    rw [hv, hload, hp, hfind]
    simp [truthy]
  refine ⟨by rw [hfind], by rw [hmain], by rw [hmain], ?_⟩
  rw [hmain, hfind]
  by_cases hroot : endswith env.userArn ":root" = true
  · rw [if_pos hroot]
    rfl
  · rw [if_neg hroot]
    rfl

/-- Witness for C7: the sample run with zero devices exits recoverably
without touching the file or calling STS. -/
theorem no_mfa_devices_recoverable_applied :
    (find_mfa_for_user sampleArgsDirect.serial_number sampleEnvNoDevices).res =
      Except.ok none ∧
    (main sampleArgsDirect sampleEnvNoDevices sampleFS).outcome =
      MainOutcome.exited USER_RECOVERABLE_ERROR ∧
    (main sampleArgsDirect sampleEnvNoDevices sampleFS).fs = sampleFS ∧
    (main sampleArgsDirect sampleEnvNoDevices sampleFS).calls.any isStsCall =
      false :=
  no_mfa_devices_recoverable sampleArgsDirect sampleEnvNoDevices sampleFS
    sampleStore (by decide) (by decide) (by decide) (by decide) (by decide)

/-! ### Persist crash safety -/

lemma readFS_writeFS_self (fs : FS) (p : String) (c : List IniLine) :
    readFS (writeFS fs p c) p = some c := by
  induction fs with
  | nil => simp [writeFS, readFS]
  | cons e tl ih =>
      by_cases he : e.1 = p
      · simp [writeFS, he, readFS]
      · simp [writeFS, he, readFS, ih]

lemma readFS_writeFS_ne (fs : FS) (p q : String) (c : List IniLine)
    (h : q ≠ p) :
    readFS (writeFS fs p c) q = readFS fs q := by
  induction fs with
  | nil =>
      have hp : ¬ p = q := fun hx => h hx.symm
      simp [writeFS, readFS, hp]
  | cons e tl ih =>
      have hw : writeFS (e :: tl) p c =
          if e.1 = p then (p, c) :: tl else e :: writeFS tl p c := rfl
      have hp : ¬ p = q := fun hx => h hx.symm
      by_cases he : e.1 = p
      · have he2 : ¬ e.1 = q := by rw [he]; exact hp
        rw [hw, if_pos he]
        simp [readFS, hp, he2]
      · rw [hw, if_neg he]
        by_cases heq : e.1 = q
        · simp [readFS, heq]
        · simp [readFS, heq, ih]

lemma tmpPath_ne (p : String) : tmpPath p ≠ p := by
  intro h
  have hl := congrArg String.length h
  rw [tmpPath, String.length_append,
    show (".tmp" : String).length = 4 from by decide] at hl
  omega

lemma persistFS_read (fs : FS) (path : String) (content : List IniLine) :
    readFS (persistFS fs path content) path = some content := by
  unfold persistFS renameFS
  rw [readFS_writeFS_self]
  exact readFS_writeFS_self _ _ _

lemma dropWhile_append_of_all (p : Char → Bool) (l₁ l₂ : List Char)
    (h : ∀ a ∈ l₁, p a = true) :
    (l₁ ++ l₂).dropWhile p = l₂.dropWhile p := by
  induction l₁ with
  | nil => rfl
  | cons a tl ih =>
      simp only [List.cons_append, List.dropWhile_cons, h a (by simp), if_true]
      exact ih (fun x hx => h x (by simp [hx]))

lemma dirName_tmpPath (p : String) : dirName (tmpPath p) = dirName p := by
  unfold dirName tmpPath
  have hl : (p ++ ".tmp").toList = p.toList ++ ".tmp".toList :=
    String.data_append p ".tmp"
  rw [hl, List.reverse_append]
  rw [dropWhile_append_of_all _ _ _ (by decide)]

/-- C10: persisting first writes the complete serialized store to a
temporary file in the same directory as the target path (the target path
plus a ".tmp" suffix) and only then renames it over the target: in every
reachable intermediate state the target path still holds its original
content — never a partial file — and only the final atomic rename, after
which the target holds the complete content, changes it; a failure of the
write or of the rename therefore leaves the original file untouched. -/
theorem persist_crash_safety (fs : FS) (path : String)
    (content : List IniLine) :
    readFS (persistFS fs path content) path = some content ∧
    readFS (writeFS fs (tmpPath path) content) (tmpPath path) = some content ∧
    (∀ s ∈ persistStates fs path content,
        readFS s path = readFS fs path ∨ readFS s path = some content) ∧
    (∀ s ∈ (persistStates fs path content).dropLast,
        readFS s path = readFS fs path) ∧
    dirName (tmpPath path) = dirName path := by
  have hne : path ≠ tmpPath path := fun h => tmpPath_ne path h.symm
  refine ⟨persistFS_read fs path content, readFS_writeFS_self _ _ _, ?_, ?_,
    dirName_tmpPath path⟩
  · intro s hs
    unfold persistStates at hs
    rcases List.mem_append.mp hs with hs | hs
    · obtain ⟨j, hj, rfl⟩ := List.mem_map.mp hs
      exact Or.inl (readFS_writeFS_ne fs (tmpPath path) path _ hne)
    · rw [List.mem_singleton.mp hs]
      exact Or.inr (persistFS_read fs path content)
  · intro s hs
    unfold persistStates at hs
    rw [List.dropLast_concat] at hs
    obtain ⟨j, hj, rfl⟩ := List.mem_map.mp hs
    exact readFS_writeFS_ne fs (tmpPath path) path _ hne

/-- Witness for C10: a crash state in the middle of writing the rotated
sample store leaves the original credentials file readable unchanged. -/
theorem persist_crash_safety_applied :
    readFS (writeFS sampleFS (tmpPath "/home/u/.aws/credentials")
        ((writeStore sampleRotatedStore).take 3)) "/home/u/.aws/credentials" =
      readFS sampleFS "/home/u/.aws/credentials" ∨
    readFS (writeFS sampleFS (tmpPath "/home/u/.aws/credentials")
        ((writeStore sampleRotatedStore).take 3)) "/home/u/.aws/credentials" =
      some (writeStore sampleRotatedStore) :=
  (persist_crash_safety sampleFS "/home/u/.aws/credentials"
    (writeStore sampleRotatedStore)).2.2.1 _ (by decide)

end Awsmfa
